import Mathlib

/-
Verification of the text2sql baseline harness: a shallow embedding of the
SQL-extraction pipeline (data_utils.extract_sql_query), prompt construction
(prompt_template.build_prompt), the LLM client (llm.OpenAIChatLLM), the run
loop (app.main) and schema formatting (data_utils.SpiderDataset), together
with theorems settling the specification's claims about them.
-/

/-- Whitespace as matched by str.strip and the regex whitespace class in
`data_utils.py`: space (32), tab (9), newline (10), carriage return (13),
vertical tab (11), form feed (12).  Python additionally treats a few rare
control and Unicode space characters as whitespace; the model restricts
attention to these six, which cover the printable-ASCII responses the
pipeline handles. -/
def isSpaceC (c : Char) : Bool :=
  c.toNat = 32 || c.toNat = 9 || c.toNat = 10 || c.toNat = 13 ||
    c.toNat = 11 || c.toNat = 12

/-- Lower-casing of an ASCII code point, used for the IGNORECASE regex flags. -/
def lowerNat (c : Char) : Nat :=
  if 65 ≤ c.toNat && c.toNat ≤ 90 then c.toNat + 32 else c.toNat

/-- Case-insensitive character equality (ASCII). -/
def ciEq (a b : Char) : Bool := lowerNat a = lowerNat b

/-- Drop of leading whitespace (the left half of Python str.strip). -/
def dropLeading (l : List Char) : List Char := l.dropWhile isSpaceC

/-- Drop of trailing whitespace (the right half of Python str.strip). -/
def dropTrailing (l : List Char) : List Char := (l.reverse.dropWhile isSpaceC).reverse

/-- Python str.strip on a list of characters. -/
def pyStrip (l : List Char) : List Char := dropTrailing (dropLeading l)

/-- Case-insensitively drop `kw` as a prefix of `l`, returning the remainder
when the whole keyword is present. -/
def dropCI : List Char → List Char → Option (List Char)
  | [], l => some l
  | _ :: _, [] => none
  | k :: ks, c :: cs => if ciEq k c then dropCI ks cs else none

/-- The three-backtick code-fence marker. -/
def fenceMarker : List Char := [Char.ofNat 96, Char.ofNat 96, Char.ofNat 96]

/-- Step 1 of extract_sql_query:
re.sub of a leading fence, pattern anchored at the start, an optional
case-insensitive "sql" tag and any following whitespace included. -/
def removeLeadingFence (l : List Char) : List Char :=
  match dropCI fenceMarker l with
  | none => l
  | some rest =>
    let rest2 :=
      match dropCI ['s', 'q', 'l'] rest with
      | some r => r
      | none => rest
    rest2.dropWhile isSpaceC

/-- Step 2 of extract_sql_query:
re.sub of a trailing fence, pattern anchored at the end, the whitespace run
just before the fence included. The pipeline applies this to text with no
trailing whitespace (it was stripped first), where the regex removes exactly
one trailing fence and the whitespace before it. -/
def removeTrailingFence (l : List Char) : List Char :=
  match dropCI fenceMarker l.reverse with
  | none => l
  | some rest => (rest.dropWhile isSpaceC).reverse

/-- Step 3a of extract_sql_query: re.sub of a leading case-insensitive
"sql query:" label, whitespace allowed between the words and after the colon. -/
def removeSqlQueryLabel (l : List Char) : List Char :=
  match dropCI ['s', 'q', 'l'] l with
  | none => l
  | some r1 =>
    match dropCI ['q', 'u', 'e', 'r', 'y', ':'] (r1.dropWhile isSpaceC) with
    | none => l
    | some r2 => r2.dropWhile isSpaceC

/-- Step 3b of extract_sql_query: re.sub of a leading case-insensitive
"the sql (query|statement) (is)?:" label with interleaved whitespace. -/
def removeTheSqlLabel (l : List Char) : List Char :=
  match dropCI ['t', 'h', 'e'] l with
  | none => l
  | some r1 =>
    match dropCI ['s', 'q', 'l'] (r1.dropWhile isSpaceC) with
    | none => l
    | some r2 =>
      let r3 := r2.dropWhile isSpaceC
      let r4opt :=
        match dropCI ['q', 'u', 'e', 'r', 'y'] r3 with
        | some r => some r
        | none => dropCI ['s', 't', 'a', 't', 'e', 'm', 'e', 'n', 't'] r3
      match r4opt with
      | none => l
      | some r4 =>
        let r5 := r4.dropWhile isSpaceC
        let r6 :=
          match dropCI ['i', 's'] r5 with
          | some r => r
          | none => r5
        match r6 with
        | ':' :: r7 => r7.dropWhile isSpaceC
        | _ => l

/-- The SELECT keyword as a character list. -/
def selKw : List Char := ['s', 'e', 'l', 'e', 'c', 't']

/-- The WITH keyword as a character list. -/
def withKw : List Char := ['w', 'i', 't', 'h']

/-- Does `l` begin with SELECT (case-insensitive) followed by whitespace? -/
def matchesSel (l : List Char) : Bool :=
  match dropCI selKw l with
  | some (c :: _) => isSpaceC c
  | _ => false

/-- Does `l` begin with WITH (case-insensitive) followed by whitespace? -/
def matchesWith (l : List Char) : Bool :=
  match dropCI withKw l with
  | some (c :: _) => isSpaceC c
  | _ => false

/-- One position of re.search of the pattern (SELECT|WITH) followed by a
whitespace character, case-insensitive: does `l` begin with a match? -/
def matchesKw (l : List Char) : Bool :=
  matchesSel l || matchesWith l

/-- Leftmost suffix of `l` beginning with a keyword match, if any
(re.search, then keeping the text from match.start() onwards). -/
def keepFromKw : List Char → Option (List Char)
  | [] => none
  | c :: cs => if matchesKw (c :: cs) then some (c :: cs) else keepFromKw cs

/-- Step 4 of extract_sql_query: discard everything before the first
SELECT/WITH keyword match, when one exists. -/
def selectOnwards (l : List Char) : List Char :=
  match keepFromKw l with
  | some v => v
  | none => l

/-- Shallow embedding of data_utils.extract_sql_query: the empty-input guard,
then strip, leading-fence removal, trailing-fence removal, the two label
removals, the keyword search, and a final strip. -/
def extract_sql_query (response : List Char) : List Char :=
  if response = [] then []
  else
    pyStrip (selectOnwards (removeTheSqlLabel (removeSqlQueryLabel
      (removeTrailingFence (removeLeadingFence (pyStrip response))))))

/-- Python str.strip on a String. -/
def pyStripS (s : String) : String := ⟨pyStrip s.data⟩

set_option linter.unusedVariables false in
/-- Shallow embedding of prompt_template.build_prompt: the ZERO_SHOT_TEMPLATE
(after dedent and strip) with the stripped schema and question substituted for
its placeholders.  The db_id argument is deleted by the function body and never
reaches the template. -/
def build_prompt (question schema : String) (db_id : Option String) : String :=
  "You are an expert SQL developer.\nGiven the following database schema:\n"
    ++ pyStripS schema
    ++ "\nWrite a correct SQL query to answer this question:\nQ: "
    ++ pyStripS question
    ++ "\nOnly output the SQL query."

/-- One part of a structured chat-message content, with the attributes the
code reads via getattr: part.type (None when absent) and part.text (the empty
string when absent). -/
structure MessagePart where
  type : Option String
  text : String
deriving DecidableEq

/-- Chat-message content: either a plain string or a list of typed parts. -/
inductive MsgContent where
  | str (s : String)
  | parts (l : List MessagePart)
deriving DecidableEq

/-- The message of one completion choice; content may be absent (None). -/
structure ChatMessage where
  content : Option MsgContent
deriving DecidableEq

/-- One completion choice. -/
structure ChatChoice where
  message : ChatMessage
deriving DecidableEq

/-- A chat completion response: a list of choices. -/
structure ChatCompletion where
  choices : List ChatChoice
deriving DecidableEq

/-- The LLMError raised by llm.py, one constructor per raise site. -/
inductive LLMFailure where
  | noChoices
  | noContent
  | noTextParts
  | requestFailed (router : String)
deriving DecidableEq

/-- Python "".join. -/
def joinParts (l : List String) : String := l.foldr (fun a b => a ++ b) ""

/-- The text_parts list comprehension of OpenAIChatLLM._extract_sql: parts
whose type attribute equals "text" and whose text attribute is truthy. -/
def textParts (l : List MessagePart) : List String :=
  (l.filter (fun p => p.type == some "text" && p.text != "")).map (fun p => p.text)

/-- Shallow embedding of OpenAIChatLLM._extract_sql: empty choices raise, the
first choice's message content is read, falsy content (None, empty string,
empty list) raises, a string is used directly, a part list is reduced to its
text parts and joined; the result is stripped. -/
def extract_sql_completion (c : ChatCompletion) : Except LLMFailure String :=
  match c.choices with
  | [] => .error .noChoices
  | ch :: _ =>
    match ch.message.content with
    | none => .error .noContent
    | some (.str s) => if s = "" then .error .noContent else .ok (pyStripS s)
    | some (.parts l) =>
      if l = [] then .error .noContent
      else
        let ps := textParts l
        if ps = [] then .error .noTextParts
        else .ok (pyStripS (joinParts ps))

/-- Static router table ROUTER_CONFIGS of llm.py. -/
structure RouterConfig where
  base_url : String
  api_key_env : String
  default_headers : Option (List (String × String))
deriving DecidableEq

def ROUTER_CONFIGS : List (String × RouterConfig) :=
  [("openrouter", ⟨"https://openrouter.ai/api/v1", "OPENROUTER_API_KEY", none⟩),
   ("deepseek", ⟨"https://api.deepseek.com/v1", "DEEPSEEK_API_KEY", none⟩)]

def lookupRouter (r : String) : Option RouterConfig :=
  (ROUTER_CONFIGS.find? (fun p => p.1 == r)).map (fun p => p.2)

/-- Errors raised by OpenAIChatLLM.__init__ before any network activity:
ValueError for an unknown router, EnvironmentError for a missing key. -/
inductive ConfigError where
  | unsupportedRouter (router : String)
  | missingApiKey (envVar : String)
deriving DecidableEq

/-- The state held by a successfully constructed client. -/
structure ClientState where
  router : String
  base_url : String
  api_key : String
  timeout : Nat
deriving DecidableEq

/-- Python truthiness fallback api_key or os.getenv(env_var): an explicit
non-empty key wins, otherwise the environment variable is consulted. -/
def resolveApiKey (apiKey : Option String) (env : String → Option String)
    (envVar : String) : Option String :=
  match apiKey with
  | some k => if k ≠ "" then some k else env envVar
  | none => env envVar

/-- Shallow embedding of OpenAIChatLLM.__init__.  It takes no backend oracle:
construction performs no network attempt, and the two error conditions are
decided purely from the router table and the environment. -/
def OpenAIChatLLM_init (env : String → Option String) (router : String)
    (apiKey : Option String) (timeout : Nat) : Except ConfigError ClientState :=
  match lookupRouter router with
  | none => .error (.unsupportedRouter router)
  | some cfg =>
    match resolveApiKey apiKey env cfg.api_key_env with
    | none => .error (.missingApiKey cfg.api_key_env)
    | some k =>
      if k = "" then .error (.missingApiKey cfg.api_key_env)
      else .ok ⟨router, cfg.base_url, k, timeout⟩

/-- Outcome of one chat.completions.create call: an OpenAIError from the
transport, or a parsed completion. -/
inductive AttemptOutcome where
  | apiError
  | completion (c : ChatCompletion)
deriving DecidableEq

/-- The LLMResult dataclass of llm.py (raw kept as the completion itself). -/
structure LLMResult where
  sql : String
  raw : ChatCompletion
deriving DecidableEq

/-- Shallow embedding of OpenAIChatLLM.generate.  The backend oracle gives the
outcome of the n-th call attempt; the method body makes a single call (attempt
0): an OpenAIError is wrapped into LLMError and re-raised immediately — there
is no retry loop — and otherwise the completion is parsed by _extract_sql. -/
def generate (st : ClientState) (backend : Nat → AttemptOutcome) :
    Except LLMFailure LLMResult :=
  match backend 0 with
  | .apiError => .error (.requestFailed st.router)
  | .completion c =>
    match extract_sql_completion c with
    | .error e => .error e
    | .ok sql => .ok ⟨sql, c⟩

/-- The SpiderExample dataclass of data_utils.py. -/
structure SpiderExample where
  question : String
  gold_sql : String
  db_id : String
deriving DecidableEq

/-- Per-example body of app.main's loop: the try block covers the generate
call and the SQL extraction; any exception there is caught, logged, and
degraded to the empty-string prediction. -/
def processExample (gen : SpiderExample → Except LLMFailure LLMResult)
    (ex : SpiderExample) : List Char :=
  match gen ex with
  | .ok r => extract_sql_query r.sql.data
  | .error _ => []

/-- The pred_rows list of app.main: one prediction per example, in order. -/
def predRows (gen : SpiderExample → Except LLMFailure LLMResult)
    (examples : List SpiderExample) : List (List Char) :=
  examples.map (processExample gen)

/-- The text written by app.main: newline-joined rows plus a trailing
newline. -/
def outputText (rows : List (List Char)) : List Char :=
  (List.intercalate ['\n'] rows) ++ ['\n']

/-- The complete file content produced by a run of app.main's loop. -/
def runOutput (gen : SpiderExample → Except LLMFailure LLMResult)
    (examples : List SpiderExample) : List Char :=
  outputText (predRows gen examples)

/-- One entry of tables.json as read by SpiderDataset._iter_tables. -/
structure SchemaInfo where
  table_names_original : List String
  column_names_original : List (Int × String)
deriving DecidableEq

/-- dict setdefault(idx, []).append(col): append col to the entry for idx,
creating the entry at the end when absent. -/
def insertColumn : List (Int × List String) → Int → String → List (Int × List String)
  | [], idx, col => [(idx, [col])]
  | (k, cols) :: rest, idx, col =>
    if k = idx then (k, cols ++ [col]) :: rest
    else (k, cols) :: insertColumn rest idx col

/-- The table_to_columns mapping of SpiderDataset._iter_tables: one empty
entry per table index, then each column appended to its table's entry, with
the sentinel index -1 skipped. -/
def tableToColumns (tables : List String) (columns : List (Int × String)) :
    List (Int × List String) :=
  columns.foldl
    (fun m c => if c.1 = -1 then m else insertColumn m c.1 c.2)
    ((List.range tables.length).map (fun i => ((i : Int), ([] : List String))))

/-- dict .get(idx, []). -/
def lookupCols : List (Int × List String) → Int → List String
  | [], _ => []
  | (k, cols) :: rest, i => if k = i then cols else lookupCols rest i

/-- SpiderDataset._iter_tables: for each table, its name with its columns. -/
def iterTables (s : SchemaInfo) : List (String × List String) :=
  (s.table_names_original.enum).map
    (fun p =>
      (p.2, lookupCols (tableToColumns s.table_names_original s.column_names_original)
        (p.1 : Int)))

/-- The KeyError raised by SpiderDataset.get_schema for an unknown db_id. -/
inductive SchemaLookupError where
  | unknownDbId (db_id : String)
deriving DecidableEq

/-- Shallow embedding of SpiderDataset.get_schema: look the db_id up in the
schema mapping (KeyError when unknown), then format one line per table. -/
def get_schema (schemas : List (String × SchemaInfo)) (db_id : String) :
    Except SchemaLookupError String :=
  match (schemas.find? (fun p => p.1 == db_id)).map (fun p => p.2) with
  | none => .error (.unknownDbId db_id)
  | some s =>
    .ok (String.intercalate "\n"
      ((iterTables s).map
        (fun tc => "Table: " ++ tc.1 ++ "(" ++ String.intercalate ", " tc.2 ++ ")")))

/-
Theorems settling the claims.
-/

/-- C3: extract_sql maps the specification's example inputs to its example
outputs: a SELECT statement wrapped in sql code fences yields the bare
statement, a leading "SQL Query:" label is stripped, and explanatory preamble
before the first SELECT keyword is discarded. -/
theorem c3_extract_sql_examples :
    extract_sql_query "```sql\nSELECT * FROM t\n```".toList = "SELECT * FROM t".toList
    ∧ extract_sql_query "SQL Query: SELECT a FROM b".toList = "SELECT a FROM b".toList
    ∧ extract_sql_query "Sure! The answer is: SELECT 1".toList = "SELECT 1".toList :=
  ⟨by decide, by decide, by decide⟩

/-- C9: extract_sql is total — the embedding extract_sql_query is a total
function on all character lists, so it never fails — and it maps the empty
input to the empty output. -/
theorem c9_extract_sql_empty : extract_sql_query "".toList = "".toList := by
  decide

/-- C4 counterexample: extract_sql is not idempotent.  On the input
"a``````" the first application removes one trailing code fence, leaving
"a```", and a second application removes the remaining fence, producing "a". -/
theorem c4_counterexample :
    extract_sql_query (extract_sql_query "a``````".toList)
      ≠ extract_sql_query "a``````".toList := by
  decide

/-- C5: build_prompt is deterministic and pure: identical (question, schema)
inputs (and the same db_id) always produce identical prompt strings.  In this
embedding build_prompt is a function of its arguments only, so no randomness,
time, or hidden state can influence the output. -/
theorem c5_build_prompt_deterministic (q1 q2 s1 s2 : String)
    (d1 d2 : Option String) (hq : q1 = q2) (hs : s1 = s2) (hd : d1 = d2) :
    build_prompt q1 s1 d1 = build_prompt q2 s2 d2 := by
  subst hq; subst hs; subst hd; rfl

theorem c5_witness :
    build_prompt "How many heads?" "Table: head(age)" (some "db1")
      = build_prompt "How many heads?" "Table: head(age)" (some "db1") :=
  c5_build_prompt_deterministic "How many heads?" "How many heads?"
    "Table: head(age)" "Table: head(age)" (some "db1") (some "db1") rfl rfl rfl

/-- C10: build_prompt's output does not depend on its db_id argument: for any
question and schema and any two db_id values (including none) the returned
prompts are identical — the body deletes db_id before building the string. -/
theorem c10_build_prompt_ignores_db_id (q s : String) (d1 d2 : Option String) :
    build_prompt q s d1 = build_prompt q s d2 := rfl

/-- C1 counterexample: generate does not retry.  For a backend whose first two
attempts fail transiently and whose third attempt would succeed, generate
surfaces the transport failure of the first attempt as a terminal LLM error
instead of returning the successful result after 3 attempts. -/
theorem c1_counterexample :
    generate ⟨"openrouter", "https://openrouter.ai/api/v1", "key", 120⟩
      (fun n => if n < 2 then .apiError
                else .completion ⟨[⟨⟨some (.str "SELECT 1")⟩⟩]⟩)
      = .error (.requestFailed "openrouter") := rfl

/-- C1 amended: generate performs exactly one backend attempt, with no retry
and no backoff: its result depends only on the outcome of attempt 0, and a
transient transport failure there is immediately surfaced as a terminal LLM
error (even when later attempts would succeed).  Non-transient configuration
failures are raised by the constructor, before any attempt. -/
theorem c1_amended_single_attempt (st : ClientState)
    (b1 b2 : Nat → AttemptOutcome) (h : b1 0 = b2 0) :
    generate st b1 = generate st b2 ∧
    (b1 0 = .apiError → generate st b1 = .error (.requestFailed st.router)) := by
  constructor
  · unfold generate; rw [h]
  · intro h0; unfold generate; rw [h0]

theorem c1_amended_witness :
    generate ⟨"openrouter", "https://openrouter.ai/api/v1", "key", 120⟩
        (fun _ => AttemptOutcome.apiError)
      = generate ⟨"openrouter", "https://openrouter.ai/api/v1", "key", 120⟩
        (fun n => if n = 0 then AttemptOutcome.apiError
                  else AttemptOutcome.completion (ChatCompletion.mk [])) ∧
    ((fun (_ : Nat) => AttemptOutcome.apiError) 0 = AttemptOutcome.apiError →
      generate ⟨"openrouter", "https://openrouter.ai/api/v1", "key", 120⟩
          (fun _ => AttemptOutcome.apiError)
        = .error (.requestFailed "openrouter")) :=
  c1_amended_single_attempt ⟨"openrouter", "https://openrouter.ai/api/v1", "key", 120⟩
    (fun _ => AttemptOutcome.apiError)
    (fun n => if n = 0 then AttemptOutcome.apiError
              else AttemptOutcome.completion (ChatCompletion.mk [])) rfl

/-- C7: constructing the client with an unknown backend name, or with no API
key passed and none resolvable from the backend's environment variable, fails
with a fatal configuration error.  The embedded constructor takes no backend
oracle at all, so no request can be sent under either condition: network
attempts exist only in generate, which requires a successfully constructed
ClientState. -/
theorem c7_config_errors (env : String → Option String) (router : String)
    (apiKey : Option String) (timeout : Nat) :
    (lookupRouter router = none →
      OpenAIChatLLM_init env router apiKey timeout
        = .error (.unsupportedRouter router)) ∧
    (∀ cfg, lookupRouter router = some cfg → apiKey = none →
      env cfg.api_key_env = none →
      OpenAIChatLLM_init env router apiKey timeout
        = .error (.missingApiKey cfg.api_key_env)) := by
  constructor
  · intro h
    unfold OpenAIChatLLM_init
    rw [h]
  · intro cfg h hk he
    subst hk
    simp only [OpenAIChatLLM_init, h, resolveApiKey, he]

/-- C2: the run loop isolates per-example failures: the row list has exactly
one entry per input example, rows appear in input order (entry i is the
processed form of example i), a failing example degrades to the empty row, a
successful one records the extracted SQL, and a run over zero examples still
writes a file containing just a trailing newline. -/
theorem c2_run_loop (gen : SpiderExample → Except LLMFailure LLMResult)
    (examples : List SpiderExample) :
    (predRows gen examples).length = examples.length ∧
    (∀ i, (predRows gen examples).get? i
        = (examples.get? i).map (processExample gen)) ∧
    (∀ ex e, gen ex = .error e → processExample gen ex = []) ∧
    (∀ ex r, gen ex = .ok r →
        processExample gen ex = extract_sql_query r.sql.data) ∧
    runOutput gen [] = ['\n'] := by
  refine ⟨by simp [predRows], fun i => by simp [predRows], ?_, ?_, rfl⟩
  · intro ex e h
    unfold processExample
    rw [h]
  · intro ex r h
    unfold processExample
    rw [h]

theorem c2_witness :
    processExample (fun _ => Except.error LLMFailure.noChoices) ⟨"q", "g", "d"⟩ = [] ∧
    processExample
        (fun _ => Except.ok (LLMResult.mk "SELECT 1" (ChatCompletion.mk [])))
        ⟨"q", "g", "d"⟩
      = extract_sql_query ("SELECT 1").data ∧
    runOutput (fun _ => Except.error LLMFailure.noChoices) [] = ['\n'] :=
  ⟨(c2_run_loop (fun _ => Except.error LLMFailure.noChoices) []).2.2.1
      ⟨"q", "g", "d"⟩ LLMFailure.noChoices rfl,
   (c2_run_loop (fun _ => Except.ok (LLMResult.mk "SELECT 1" (ChatCompletion.mk []))) []).2.2.2.1
      ⟨"q", "g", "d"⟩ (LLMResult.mk "SELECT 1" (ChatCompletion.mk [])) rfl,
   (c2_run_loop (fun _ => Except.error LLMFailure.noChoices) []).2.2.2.2⟩

lemma emptyAppendStr (s : String) : "" ++ s = s := rfl

/-- Joining the text parts the code keeps (type "text" and truthy text) gives
the same string as joining every "text"-typed part in order: empty-text parts
contribute nothing to the concatenation. -/
lemma textJoin_filter (l : List MessagePart) :
    joinParts (textParts l)
      = joinParts ((l.filter (fun p => p.type == some "text")).map (fun p => p.text)) := by
  induction l with
  | nil => rfl
  | cons p rest ih =>
    by_cases ht : p.type = some "text"
    · by_cases hx : p.text = ""
      · simp [textParts, List.filter_cons, ht, hx, joinParts, emptyAppendStr] at ih ⊢
        exact ih
      · simp [textParts, List.filter_cons, ht, hx, joinParts] at ih ⊢
        rw [ih]
    · simp [textParts, List.filter_cons, ht, joinParts] at ih ⊢
      exact ih

/-- Reduction of extract_sql_completion on a non-empty choice list. -/
lemma extract_sql_completion_cons (ch : ChatChoice) (rest : List ChatChoice) :
    extract_sql_completion ⟨ch :: rest⟩
      = match ch.message.content with
        | none => Except.error LLMFailure.noContent
        | some (.str s) =>
          if s = "" then Except.error LLMFailure.noContent
          else Except.ok (pyStripS s)
        | some (.parts l) =>
          if l = [] then Except.error LLMFailure.noContent
          else if textParts l = [] then Except.error LLMFailure.noTextParts
          else Except.ok (pyStripS (joinParts (textParts l))) := rfl

/-- C6: response parsing extracts the first completion choice's message
content; a single text value is used directly (stripped), a sequence of typed
parts is reduced to its "text"-typed parts concatenated in order; an empty
choice list, or empty or missing content, is an LLM (malformed-response)
error. -/
theorem c6_response_parsing (c : ChatCompletion) :
    (c.choices = [] → extract_sql_completion c = .error .noChoices) ∧
    (∀ ch r1 r2, extract_sql_completion ⟨ch :: r1⟩ = extract_sql_completion ⟨ch :: r2⟩) ∧
    (∀ ch rest, c.choices = ch :: rest →
      ((ch.message.content = none → extract_sql_completion c = .error .noContent) ∧
       (ch.message.content = some (.str "") →
          extract_sql_completion c = .error .noContent) ∧
       (ch.message.content = some (.parts []) →
          extract_sql_completion c = .error .noContent) ∧
       (∀ s, ch.message.content = some (.str s) → s ≠ "" →
          extract_sql_completion c = .ok (pyStripS s)) ∧
       (∀ l, ch.message.content = some (.parts l) →
          joinParts ((l.filter (fun p => p.type == some "text")).map (fun p => p.text)) ≠ "" →
          extract_sql_completion c
            = .ok (pyStripS (joinParts
                ((l.filter (fun p => p.type == some "text")).map (fun p => p.text))))))) := by
  obtain ⟨cs⟩ := c
  refine ⟨?_, ?_, ?_⟩
  · intro h
    simp only at h
    subst h
    rfl
  · intro ch r1 r2
    rfl
  · intro ch rest h
    simp only at h
    subst h
    refine ⟨?_, ?_, ?_, ?_, ?_⟩
    · intro hc
      rw [extract_sql_completion_cons, hc]
    · intro hc
      rw [extract_sql_completion_cons, hc]
      rfl
    · intro hc
      rw [extract_sql_completion_cons, hc]
      rfl
    · intro s hc hs
      rw [extract_sql_completion_cons, hc]
      exact if_neg hs
    · intro l hc hj
      have hjoin : joinParts (textParts l)
          = joinParts ((l.filter (fun p => p.type == some "text")).map (fun p => p.text)) :=
        textJoin_filter l
      have hps : textParts l ≠ [] := by
        intro hnil
        apply hj
        rw [← hjoin, hnil]
        rfl
      have hl : l ≠ [] := by
        intro hnil
        subst hnil
        exact hps rfl
      rw [extract_sql_completion_cons, hc]
      show (if l = [] then Except.error LLMFailure.noContent
        else if textParts l = [] then Except.error LLMFailure.noTextParts
        else Except.ok (pyStripS (joinParts (textParts l)))) = _
      rw [if_neg hl, if_neg hps, hjoin]

theorem c6_witness :
    extract_sql_completion
        ⟨[⟨⟨some (.parts [⟨some "text", "SELECT"⟩, ⟨some "refusal", "no"⟩,
             ⟨some "text", " 1"⟩])⟩⟩]⟩
      = .ok (pyStripS (joinParts
          (([(⟨some "text", "SELECT"⟩ : MessagePart), ⟨some "refusal", "no"⟩,
             ⟨some "text", " 1"⟩].filter (fun p => p.type == some "text")).map
            (fun p => p.text)))) :=
  ((c6_response_parsing _).2.2 _ _ rfl).2.2.2.2
    [⟨some "text", "SELECT"⟩, ⟨some "refusal", "no"⟩, ⟨some "text", " 1"⟩]
    rfl (by decide)

/-- Folding the columns into the table map skips sentinel entries: filtering
the -1 rows out first gives the same mapping. -/
lemma tableToColumns_skip (cols : List (Int × String)) (m : List (Int × List String)) :
    cols.foldl (fun m c => if c.1 = -1 then m else insertColumn m c.1 c.2) m
      = (cols.filter (fun c => c.1 != -1)).foldl
          (fun m c => if c.1 = -1 then m else insertColumn m c.1 c.2) m := by
  induction cols generalizing m with
  | nil => rfl
  | cons c rest ih =>
    by_cases h : c.1 = -1
    · simp [List.filter_cons, h, ih]
    · simp [List.filter_cons, h, ih]

/-- C8: schema formatting produces one "Table: name(col, ...)" line per table
joined by newlines; on the specification's example the sentinel -1 column is
omitted, sentinel columns never enter the table map at all, and an unknown
db_id fails with the NotFound (KeyError) error. -/
theorem c8_schema_formatting :
    get_schema [("db1", ⟨["a", "b"],
        [((0 : Int), "x"), ((1 : Int), "y"), ((-1 : Int), "*")]⟩)] "db1"
      = .ok "Table: a(x)\nTable: b(y)" ∧
    (∀ tables columns,
      tableToColumns tables columns
        = tableToColumns tables (columns.filter (fun c => c.1 != -1))) ∧
    (∀ schemas db_id, schemas.find? (fun p => p.1 == db_id) = none →
      get_schema schemas db_id = Except.error (.unknownDbId db_id)) := by
  refine ⟨rfl, ?_, ?_⟩
  · intro tables columns
    unfold tableToColumns
    exact tableToColumns_skip columns _
  · intro schemas db_id h
    unfold get_schema
    rw [h]
    rfl

theorem c8_witness :
    get_schema [] "zzz" = Except.error (.unknownDbId "zzz") :=
  c8_schema_formatting.2.2 [] "zzz" rfl

theorem c7_witness :
    OpenAIChatLLM_init (fun _ => none) "nope" none 120
      = .error (.unsupportedRouter "nope") ∧
    OpenAIChatLLM_init (fun _ => none) "openrouter" none 120
      = .error (.missingApiKey "OPENROUTER_API_KEY") :=
  ⟨(c7_config_errors (fun _ => none) "nope" none 120).1 rfl,
   (c7_config_errors (fun _ => none) "openrouter" none 120).2
     ⟨"https://openrouter.ai/api/v1", "OPENROUTER_API_KEY", none⟩ rfl rfl rfl⟩

/-
Lemmas for the amended idempotence claim about extract_sql_query.
-/

lemma dropWhile_dropWhile (p : Char → Bool) (l : List Char) :
    (l.dropWhile p).dropWhile p = l.dropWhile p := by
  induction l with
  | nil => rfl
  | cons c cs ih =>
    cases hp : p c
    · rw [List.dropWhile_cons_of_neg (by simp [hp]), List.dropWhile_cons_of_neg (by simp [hp])]
    · rw [List.dropWhile_cons_of_pos hp]
      exact ih

lemma length_dropWhile_le (p : Char → Bool) (l : List Char) :
    (l.dropWhile p).length ≤ l.length := by
  induction l with
  | nil => simp
  | cons c cs ih =>
    cases hp : p c
    · rw [List.dropWhile_cons_of_neg (by simp [hp])]
    · rw [List.dropWhile_cons_of_pos hp]
      simp
      omega

lemma dropWhile_eq_self_head {p : Char → Bool} {c : Char} {cs : List Char}
    (h : (c :: cs).dropWhile p = c :: cs) : p c = false := by
  cases hb : p c
  · rfl
  · exfalso
    rw [List.dropWhile_cons_of_pos hb] at h
    have hlen := congrArg List.length h
    have hle := length_dropWhile_le p cs
    simp at hlen
    omega

lemma dropLeading_dropLeading (l : List Char) :
    dropLeading (dropLeading l) = dropLeading l :=
  dropWhile_dropWhile isSpaceC l

lemma dropTrailing_dropTrailing (l : List Char) :
    dropTrailing (dropTrailing l) = dropTrailing l := by
  unfold dropTrailing
  rw [List.reverse_reverse, dropWhile_dropWhile]

lemma exists_append_dropLeading (l : List Char) : ∃ w, l = w ++ dropLeading l :=
  ⟨l.takeWhile isSpaceC, (List.takeWhile_append_dropWhile isSpaceC l).symm⟩

lemma exists_dropTrailing_append (l : List Char) : ∃ w, l = dropTrailing l ++ w := by
  have h := congrArg List.reverse (List.takeWhile_append_dropWhile isSpaceC l.reverse)
  rw [List.reverse_append, List.reverse_reverse] at h
  exact ⟨(l.reverse.takeWhile isSpaceC).reverse, h.symm⟩

lemma dropLeading_dropTrailing {u : List Char} (h : dropLeading u = u) :
    dropLeading (dropTrailing u) = dropTrailing u := by
  cases hu : dropTrailing u with
  | nil => rfl
  | cons c cs =>
    obtain ⟨w, hw⟩ := exists_dropTrailing_append u
    rw [hu] at hw
    have hw2 : u = c :: (cs ++ w) := by rw [hw]; rfl
    have hself : (c :: (cs ++ w)).dropWhile isSpaceC = c :: (cs ++ w) := by
      have h2 := h
      rw [hw2] at h2
      exact h2
    have hc : isSpaceC c = false := dropWhile_eq_self_head hself
    unfold dropLeading
    exact List.dropWhile_cons_of_neg (by simp [hc])

lemma pyStrip_idem (l : List Char) : pyStrip (pyStrip l) = pyStrip l := by
  unfold pyStrip
  rw [dropLeading_dropTrailing (dropLeading_dropLeading l), dropTrailing_dropTrailing]

lemma extract_stripped (s : List Char) :
    pyStrip (extract_sql_query s) = extract_sql_query s := by
  unfold extract_sql_query
  by_cases hs : s = []
  · rw [if_pos hs]
    rfl
  · rw [if_neg hs]
    exact pyStrip_idem _

lemma dropCI_append {kw u v : List Char} (h : dropCI kw u = some v) (w : List Char) :
    dropCI kw (u ++ w) = some (v ++ w) := by
  induction kw generalizing u with
  | nil =>
    simp [dropCI] at h ⊢
    rw [h]
  | cons k ks ih =>
    cases u with
    | nil => simp [dropCI] at h
    | cons c cs =>
      rw [List.cons_append]
      unfold dropCI at h ⊢
      by_cases hc : ciEq k c = true
      · rw [if_pos hc] at h ⊢
        exact ih h
      · rw [if_neg hc] at h
        exact absurd h (by simp)

lemma dropCI_length {kw u v : List Char} (h : dropCI kw u = some v) :
    u.length = kw.length + v.length := by
  induction kw generalizing u with
  | nil =>
    simp [dropCI] at h
    rw [h]
    simp
  | cons k ks ih =>
    cases u with
    | nil => simp [dropCI] at h
    | cons c cs =>
      unfold dropCI at h
      by_cases hc : ciEq k c = true
      · rw [if_pos hc] at h
        have := ih h
        simp [this]
        omega
      · rw [if_neg hc] at h
        exact absurd h (by simp)

lemma dropCI_head {k : Char} {ks u v : List Char} (h : dropCI (k :: ks) u = some v) :
    ∃ c cs, u = c :: cs ∧ ciEq k c = true ∧ dropCI ks cs = some v := by
  cases u with
  | nil => simp [dropCI] at h
  | cons c cs =>
    unfold dropCI at h
    by_cases hc : ciEq k c = true
    · rw [if_pos hc] at h
      exact ⟨c, cs, rfl, hc, h⟩
    · rw [if_neg hc] at h
      exact absurd h (by simp)

lemma dropCI_of_append {kw y w : List Char} {c : Char} {r : List Char}
    (h : dropCI kw (y ++ w) = some (c :: r)) (hlen : kw.length + 1 ≤ y.length) :
    ∃ r2, dropCI kw y = some (c :: r2) := by
  induction kw generalizing y with
  | nil =>
    simp [dropCI] at h ⊢
    cases y with
    | nil => simp at hlen
    | cons y0 ys =>
      rw [List.cons_append] at h
      have h1 : y0 = c := by
        have := congrArg (fun l => List.head? l) h
        simpa using this
      exact ⟨ys, by rw [h1]⟩
  | cons k ks ih =>
    cases y with
    | nil => simp at hlen
    | cons y0 ys =>
      rw [List.cons_append] at h
      unfold dropCI at h ⊢
      by_cases hc : ciEq k y0 = true
      · rw [if_pos hc] at h ⊢
        exact ih h (by simp at hlen ⊢; omega)
      · rw [if_neg hc] at h
        exact absurd h (by simp)

lemma matchesSel_inv {l : List Char} (h : matchesSel l = true) :
    ∃ c r, dropCI selKw l = some (c :: r) ∧ isSpaceC c = true := by
  unfold matchesSel at h
  cases hd : dropCI selKw l with
  | none => rw [hd] at h; simp at h
  | some v =>
    cases v with
    | nil => rw [hd] at h; simp at h
    | cons c r =>
      rw [hd] at h
      exact ⟨c, r, rfl, h⟩

lemma matchesWith_inv {l : List Char} (h : matchesWith l = true) :
    ∃ c r, dropCI withKw l = some (c :: r) ∧ isSpaceC c = true := by
  unfold matchesWith at h
  cases hd : dropCI withKw l with
  | none => rw [hd] at h; simp at h
  | some v =>
    cases v with
    | nil => rw [hd] at h; simp at h
    | cons c r =>
      rw [hd] at h
      exact ⟨c, r, rfl, h⟩

lemma matchesSel_of {l : List Char} {c : Char} {r : List Char}
    (hd : dropCI selKw l = some (c :: r)) (hsp : isSpaceC c = true) :
    matchesSel l = true := by
  unfold matchesSel
  rw [hd]
  exact hsp

lemma matchesWith_of {l : List Char} {c : Char} {r : List Char}
    (hd : dropCI withKw l = some (c :: r)) (hsp : isSpaceC c = true) :
    matchesWith l = true := by
  unfold matchesWith
  rw [hd]
  exact hsp

lemma matchesKw_cases {l : List Char} (h : matchesKw l = true) :
    matchesSel l = true ∨ matchesWith l = true := by
  unfold matchesKw at h
  exact Bool.or_eq_true_iff.mp h

lemma matchesKw_append {u : List Char} (h : matchesKw u = true) (w : List Char) :
    matchesKw (u ++ w) = true := by
  rcases matchesKw_cases h with hs | hw
  · obtain ⟨c, r, hd, hsp⟩ := matchesSel_inv hs
    have hd2 := dropCI_append hd w
    rw [List.cons_append] at hd2
    unfold matchesKw
    rw [matchesSel_of hd2 hsp]
    rfl
  · obtain ⟨c, r, hd, hsp⟩ := matchesWith_inv hw
    have hd2 := dropCI_append hd w
    rw [List.cons_append] at hd2
    unfold matchesKw
    rw [matchesWith_of hd2 hsp]
    simp

lemma keepFromKw_cons_none {c : Char} {cs : List Char}
    (h : keepFromKw (c :: cs) = none) :
    matchesKw (c :: cs) = false ∧ keepFromKw cs = none := by
  unfold keepFromKw at h
  by_cases hm : matchesKw (c :: cs) = true
  · rw [if_pos hm] at h
    exact absurd h (by simp)
  · refine ⟨?_, ?_⟩
    · cases hb : matchesKw (c :: cs)
      · rfl
      · exact absurd hb hm
    · rw [if_neg hm] at h
      exact h

lemma keepFromKw_append_none_right {a b : List Char}
    (h : keepFromKw (a ++ b) = none) : keepFromKw b = none := by
  induction a with
  | nil => exact h
  | cons c cs ih =>
    rw [List.cons_append] at h
    exact ih (keepFromKw_cons_none h).2

lemma keepFromKw_append_none_left {a b : List Char}
    (h : keepFromKw (a ++ b) = none) : keepFromKw a = none := by
  induction a with
  | nil => rfl
  | cons c cs ih =>
    rw [List.cons_append] at h
    obtain ⟨hm, hrest⟩ := keepFromKw_cons_none h
    have hm2 : matchesKw (c :: cs) = false := by
      cases hb : matchesKw (c :: cs)
      · rfl
      · have hap := matchesKw_append hb b
        rw [List.cons_append] at hap
        rw [hap] at hm
        exact absurd hm (by simp)
    unfold keepFromKw
    rw [if_neg (by simp [hm2])]
    exact ih hrest

lemma keepFromKw_none_of_forall {l : List Char}
    (h : ∀ n, matchesKw (l.drop n) = false) : keepFromKw l = none := by
  induction l with
  | nil => rfl
  | cons c cs ih =>
    have h0 := h 0
    rw [List.drop_zero] at h0
    unfold keepFromKw
    rw [if_neg (by simp [h0])]
    exact ih (fun n => by have hn := h (n + 1); rwa [List.drop_succ_cons] at hn)

lemma keepFromKw_some_matches {l v : List Char} (h : keepFromKw l = some v) :
    matchesKw v = true := by
  induction l with
  | nil => simp [keepFromKw] at h
  | cons c cs ih =>
    unfold keepFromKw at h
    by_cases hm : matchesKw (c :: cs) = true
    · rw [if_pos hm] at h
      injection h with h1
      rw [← h1]
      exact hm
    · rw [if_neg hm] at h
      exact ih h

lemma keepFromKw_cons_some {c : Char} {cs : List Char}
    (hm : matchesKw (c :: cs) = true) :
    keepFromKw (c :: cs) = some (c :: cs) := by
  unfold keepFromKw
  rw [if_pos hm]

lemma ciEq_iff {a b : Char} : ciEq a b = true ↔ lowerNat a = lowerNat b := by
  simp [ciEq]

lemma isSpaceC_false_of_lower {c : Char} (h : 33 ≤ lowerNat c) :
    isSpaceC c = false := by
  have ht : 33 ≤ c.toNat := by
    unfold lowerNat at h
    by_cases hc : (65 ≤ c.toNat && c.toNat ≤ 90) = true
    · simp only [Bool.and_eq_true, decide_eq_true_eq] at hc
      omega
    · rw [if_neg hc] at h
      exact h
  unfold isSpaceC
  simp only [Bool.or_eq_false_iff, decide_eq_false_iff_not]
  omega

lemma not_space_of_ciEq {k a : Char} (hk : 97 ≤ lowerNat k)
    (h : ciEq k a = true) : isSpaceC a = false := by
  have he := ciEq_iff.mp h
  exact isSpaceC_false_of_lower (by omega)

lemma keepFromKw_self_or_none_sel {u y w : List Char} {c : Char} {r : List Char}
    (hd : dropCI selKw u = some (c :: r)) (hsp : isSpaceC c = true)
    (hw : u = y ++ w) :
    keepFromKw y = some y ∨ keepFromKw y = none := by
  by_cases hlen : 7 ≤ y.length
  · left
    have hd0 : dropCI selKw (y ++ w) = some (c :: r) := by rw [← hw]; exact hd
    obtain ⟨r2, hd2⟩ := dropCI_of_append hd0 (by simp [selKw]; omega)
    have hm : matchesKw y = true := by
      unfold matchesKw
      rw [matchesSel_of hd2 hsp]
      rfl
    cases y with
    | nil => simp at hlen
    | cons y0 ys => exact keepFromKw_cons_some hm
  · right
    apply keepFromKw_none_of_forall
    intro n
    cases hb : matchesKw (y.drop n)
    · rfl
    · exfalso
      rcases matchesKw_cases hb with hbs | hbw
      · obtain ⟨c2, r2, hd2, hsp2⟩ := matchesSel_inv hbs
        have hl2 := dropCI_length hd2
        have hdl := List.length_drop n y
        simp [selKw] at hl2
        omega
      · obtain ⟨c2, r2, hd2, hsp2⟩ := matchesWith_inv hbw
        have hl2 := dropCI_length hd2
        have hdl := List.length_drop n y
        simp [withKw] at hl2
        have hn1 : n ≤ 1 := by omega
        have hy5 : 5 ≤ y.length := by omega
        have hd1 : dropCI ('s' :: ['e', 'l', 'e', 'c', 't']) u = some (c :: r) := hd
        obtain ⟨a, as, hu, hsa, hd3⟩ := dropCI_head hd1
        have hd3e : dropCI ('e' :: ['l', 'e', 'c', 't']) as = some (c :: r) := hd3
        obtain ⟨b, bs, has, heb, _⟩ := dropCI_head hd3e
        cases y with
        | nil => simp at hy5
        | cons y0 ys =>
          cases ys with
          | nil => simp at hy5
          | cons y1 ytl =>
            rw [hu, has] at hw
            rw [List.cons_append, List.cons_append] at hw
            injection hw with e0 hw2
            injection hw2 with e1 _
            have hd2h : dropCI ('w' :: ['i', 't', 'h']) ((y0 :: y1 :: ytl).drop n)
                = some (c2 :: r2) := hd2
            obtain ⟨h0, hs0, hdrop, hwc, _⟩ := dropCI_head hd2h
            rw [ciEq_iff] at hsa heb hwc
            have e1s : lowerNat 's' = 115 := by decide
            have e1e : lowerNat 'e' = 101 := by decide
            have e1w : lowerNat 'w' = 119 := by decide
            interval_cases n
            · rw [List.drop_zero] at hdrop
              injection hdrop with f0 _
              have echain : lowerNat h0 = lowerNat a := by rw [← f0, ← e0]
              omega
            · have hdrop1 : (y0 :: y1 :: ytl).drop 1 = y1 :: ytl := rfl
              rw [hdrop1] at hdrop
              injection hdrop with f0 _
              have echain : lowerNat h0 = lowerNat b := by rw [← f0, ← e1]
              omega

lemma keepFromKw_self_or_none_with {u y w : List Char} {c : Char} {r : List Char}
    (hd : dropCI withKw u = some (c :: r)) (hsp : isSpaceC c = true)
    (hw : u = y ++ w) :
    keepFromKw y = some y ∨ keepFromKw y = none := by
  by_cases hlen : 5 ≤ y.length
  · left
    have hd0 : dropCI withKw (y ++ w) = some (c :: r) := by rw [← hw]; exact hd
    obtain ⟨r2, hd2⟩ := dropCI_of_append hd0 (by simp [withKw]; omega)
    have hm : matchesKw y = true := by
      unfold matchesKw
      rw [matchesWith_of hd2 hsp]
      simp
    cases y with
    | nil => simp at hlen
    | cons y0 ys => exact keepFromKw_cons_some hm
  · right
    apply keepFromKw_none_of_forall
    intro n
    cases hb : matchesKw (y.drop n)
    · rfl
    · exfalso
      rcases matchesKw_cases hb with hbs | hbw
      · obtain ⟨c2, r2, hd2, _⟩ := matchesSel_inv hbs
        have hl2 := dropCI_length hd2
        have hdl := List.length_drop n y
        simp [selKw] at hl2
        omega
      · obtain ⟨c2, r2, hd2, _⟩ := matchesWith_inv hbw
        have hl2 := dropCI_length hd2
        have hdl := List.length_drop n y
        simp [withKw] at hl2
        omega

/-- Applying the keyword-search step and then a strip a second time changes
nothing: the core of the amended idempotence claim. -/
lemma pyStrip_selectOnwards_idem (t : List Char) :
    pyStrip (selectOnwards (pyStrip (selectOnwards t))) = pyStrip (selectOnwards t) := by
  cases hk : keepFromKw t with
  | none =>
    have hsel : selectOnwards t = t := by unfold selectOnwards; rw [hk]
    rw [hsel]
    obtain ⟨w1, hw1⟩ := exists_append_dropLeading t
    have hk2 : keepFromKw (w1 ++ dropLeading t) = none := by rw [← hw1]; exact hk
    have h1 : keepFromKw (dropLeading t) = none := keepFromKw_append_none_right hk2
    obtain ⟨w2, hw2⟩ := exists_dropTrailing_append (dropLeading t)
    have hk3 : keepFromKw (dropTrailing (dropLeading t) ++ w2) = none := by
      rw [← hw2]; exact h1
    have h2 : keepFromKw (pyStrip t) = none := by
      unfold pyStrip
      exact keepFromKw_append_none_left hk3
    have hsel2 : selectOnwards (pyStrip t) = pyStrip t := by
      unfold selectOnwards; rw [h2]
    rw [hsel2, pyStrip_idem]
  | some u =>
    have hsel : selectOnwards t = u := by unfold selectOnwards; rw [hk]
    rw [hsel]
    have hm : matchesKw u = true := keepFromKw_some_matches hk
    have hL : dropLeading u = u := by
      rcases matchesKw_cases hm with hs | hww
      · obtain ⟨c, r, hd, _⟩ := matchesSel_inv hs
        have hd1 : dropCI ('s' :: ['e', 'l', 'e', 'c', 't']) u = some (c :: r) := hd
        obtain ⟨a, as, hu, hsa, _⟩ := dropCI_head hd1
        rw [hu]
        unfold dropLeading
        exact List.dropWhile_cons_of_neg (by simp [not_space_of_ciEq (by decide) hsa])
      · obtain ⟨c, r, hd, _⟩ := matchesWith_inv hww
        have hd1 : dropCI ('w' :: ['i', 't', 'h']) u = some (c :: r) := hd
        obtain ⟨a, as, hu, hwa, _⟩ := dropCI_head hd1
        rw [hu]
        unfold dropLeading
        exact List.dropWhile_cons_of_neg (by simp [not_space_of_ciEq (by decide) hwa])
    have hstrip : pyStrip u = dropTrailing u := by unfold pyStrip; rw [hL]
    rw [hstrip]
    obtain ⟨w, hw⟩ := exists_dropTrailing_append u
    have hyn : keepFromKw (dropTrailing u) = some (dropTrailing u)
        ∨ keepFromKw (dropTrailing u) = none := by
      rcases matchesKw_cases hm with hs | hww
      · obtain ⟨c, r, hd, hsp⟩ := matchesSel_inv hs
        exact keepFromKw_self_or_none_sel hd hsp hw
      · obtain ⟨c, r, hd, hsp⟩ := matchesWith_inv hww
        exact keepFromKw_self_or_none_with hd hsp hw
    have hsel2 : selectOnwards (dropTrailing u) = dropTrailing u := by
      unfold selectOnwards
      rcases hyn with h | h <;> rw [h]
    rw [hsel2]
    unfold pyStrip
    rw [dropLeading_dropTrailing hL, dropTrailing_dropTrailing]

/-- C4 amended: extract_sql is idempotent on every input whose extracted
output is left unchanged by the fence-removal and label-removal steps.  (The
counterexample shows that in general a second application can strip a further
fence from the output, so this restriction is necessary.)  The keyword-search
step and the strips are unconditionally stable on extract_sql's output. -/
theorem c4_amended_idempotent (s : List Char)
    (h1 : removeLeadingFence (extract_sql_query s) = extract_sql_query s)
    (h2 : removeTrailingFence (extract_sql_query s) = extract_sql_query s)
    (h3 : removeSqlQueryLabel (extract_sql_query s) = extract_sql_query s)
    (h4 : removeTheSqlLabel (extract_sql_query s) = extract_sql_query s) :
    extract_sql_query (extract_sql_query s) = extract_sql_query s := by
  by_cases hs : s = []
  · subst hs
    rfl
  · by_cases hy : extract_sql_query s = []
    · rw [hy]
      rfl
    · have hunf : ∀ t : List Char, t ≠ [] → extract_sql_query t
          = pyStrip (selectOnwards (removeTheSqlLabel (removeSqlQueryLabel
              (removeTrailingFence (removeLeadingFence (pyStrip t)))))) := by
        intro t ht
        unfold extract_sql_query
        rw [if_neg ht]
      rw [hunf _ hy, extract_stripped s, h1, h2, h3, h4, hunf s hs]
      exact pyStrip_selectOnwards_idem _

theorem c4_amended_witness :
    extract_sql_query (extract_sql_query "foo".toList)
      = extract_sql_query "foo".toList :=
  c4_amended_idempotent "foo".toList (by decide) (by decide) (by decide) (by decide)
